import Mathlib

/-!
Shallow embedding of the resilience-and-delivery pipeline of
AsteRICS-Grid-Android: the retry/circuit-breaker engine
(`src/js/util/ErrorHandler.ts`), the TTS validation and provider selection
(`src/js/service/tts/TTSService.ts`), the local fallback synthesis and WAV
encoding (`src/js/service/tts/MockTTSService.ts`), and the server-backed
synthesis path (`src/js/service/tts/ServerTTSService.ts`).

JS numbers standing for millisecond timestamps, counters and byte values are
embedded as `Nat`/`Int`; the audio-sample floats are embedded as `ℚ`
(the operations performed on them — comparison, clamping, scaling,
truncation — are exact on the rationals actually supplied).
-/

namespace ARG

/-! ## Circuit breaker (ErrorHandler.ts lines 79-122, 390-475) -/

/-- `CircuitState` enum (ErrorHandler.ts lines 79-83). -/
inductive CircuitState where
  | CLOSED
  | OPEN
  | HALF_OPEN
deriving DecidableEq, Repr

/-- One entry of the `circuits` map (ErrorHandler.ts lines 104-109). -/
structure Circuit where
  state : CircuitState
  failures : Nat
  successes : Nat
  lastFailureTime : Nat
deriving DecidableEq, Repr

/-- `defaultCircuitConfig.failureThreshold` (ErrorHandler.ts line 119). -/
def failureThreshold : Nat := 5

/-- `defaultCircuitConfig.successThreshold` (ErrorHandler.ts line 120). -/
def successThreshold : Nat := 2

/-- `defaultCircuitConfig.timeout` (ErrorHandler.ts line 121). -/
def circuitTimeout : Nat := 60000

/-- The record installed by `getOrCreateCircuit` for an absent key
(ErrorHandler.ts lines 466-473). -/
def initialCircuit : Circuit :=
  { state := .CLOSED, failures := 0, successes := 0, lastFailureTime := 0 }

/-- `getOrCreateCircuit` (ErrorHandler.ts lines 460-475), restricted to the
one key under consideration: `none` models the key being absent from the map. -/
def getOrCreateCircuit (c : Option Circuit) : Circuit :=
  c.getD initialCircuit

/-- `recordFailure` (ErrorHandler.ts lines 390-402); `now` is `Date.now()`. -/
def recordFailure (c : Option Circuit) (now : Nat) : Circuit :=
  let circ := getOrCreateCircuit c
  let circ := { circ with
    failures := circ.failures + 1
    lastFailureTime := now
    successes := 0 }
  if failureThreshold ≤ circ.failures then { circ with state := .OPEN } else circ

/-- `recordSuccess` (ErrorHandler.ts lines 409-424). -/
def recordSuccess (c : Option Circuit) : Circuit :=
  let circ := getOrCreateCircuit c
  match circ.state with
  | .HALF_OPEN =>
      let circ := { circ with successes := circ.successes + 1 }
      if successThreshold ≤ circ.successes then
        { circ with state := .CLOSED, failures := 0, successes := 0 }
      else circ
  | .CLOSED => { circ with failures := 0 }
  | .OPEN => circ

/-- `isCircuitOpen` (ErrorHandler.ts lines 432-452).  The method both answers
the query and may mutate the record (OPEN → HALF_OPEN once the cooldown has
elapsed), so it returns the answer paired with the updated map entry.
JS computes `Date.now() - lastFailureTime` with signed arithmetic; a negative
difference compares below the timeout exactly as the truncated `Nat`
difference does, since `circuitTimeout > 0`. -/
def isCircuitOpen (c : Option Circuit) (now : Nat) : Bool × Option Circuit :=
  match c with
  | none => (false, none)
  | some circ =>
    match circ.state with
    | .OPEN =>
        if circuitTimeout ≤ now - circ.lastFailureTime then
          (false, some { circ with state := .HALF_OPEN })
        else
          (true, some circ)
    | _ => (false, some circ)

/-- `n` consecutive `recordFailure` calls starting from an absent key, the
`k`-th at time `ts k`. -/
def failN (ts : Nat → Nat) : Nat → Circuit
  | 0 => initialCircuit
  | n + 1 => recordFailure (some (failN ts n)) (ts n)

/-- The map entries producible by the engine: absent, or obtained from a
reachable entry by `recordFailure`, `recordSuccess`, or an `isCircuitOpen`
query (the only code paths that touch the `circuits` map). -/
inductive Reachable : Option Circuit → Prop where
  | absent : Reachable none
  | fail (c : Option Circuit) (now : Nat) :
      Reachable c → Reachable (some (recordFailure c now))
  | succ (c : Option Circuit) :
      Reachable c → Reachable (some (recordSuccess c))
  | query (c : Option Circuit) (now : Nat) :
      Reachable c → Reachable (isCircuitOpen c now).2

/-- The invariant of C10: any present record that is not CLOSED carries at
least `failureThreshold` recorded failures. -/
def circuitInvariant (c : Option Circuit) : Prop :=
  ∀ circ, c = some circ → circ.state ≠ .CLOSED → failureThreshold ≤ circ.failures

/-! ## Retry engine (ErrorHandler.ts lines 111-116, 204-266) -/

/-- `defaultRetryConfig` (ErrorHandler.ts lines 111-116). -/
structure RetryConfigT where
  maxAttempts : Nat
  baseDelay : Nat
  maxDelay : Nat
  backoffMultiplier : Nat
deriving DecidableEq, Repr

/-- `defaultRetryConfig` values (ErrorHandler.ts lines 111-116). -/
def defaultRetryConfig : RetryConfigT :=
  { maxAttempts := 3, baseDelay := 1000, maxDelay := 10000, backoffMultiplier := 2 }

/-- The exponential-backoff delay computed inside `withRetry`
(ErrorHandler.ts lines 246-249): only `baseDelay` comes from the per-call
options (`options.retryDelay`); the multiplier and the cap are read from
`defaultRetryConfig`. -/
def backoffDelay (baseDelay attempt : Nat) : Nat :=
  min (baseDelay * defaultRetryConfig.backoffMultiplier ^ attempt)
    defaultRetryConfig.maxDelay

/-- The `RetryPolicy` as the spec describes it (section 3), with all four
fields per-call data.  Used only to compare the spec's delay formula with the
code's (`backoffDelay`). -/
structure RetryPolicy where
  maxAttempts : Nat
  baseDelay : Nat
  maxDelay : Nat
  backoffMultiplier : Nat
deriving DecidableEq, Repr

/-- The spec's delay invariant, written from its words
(`delay(attempt) = min(baseDelay·multiplier^attempt, maxDelay)`, section 3),
over the spec's four-field policy.  Comparison definition for C6. -/
def specDelay (p : RetryPolicy) (attempt : Nat) : Nat :=
  min (p.baseDelay * p.backoffMultiplier ^ attempt) p.maxDelay

/-- How one `withRetry` call terminates.  `ok` is a return; `circuitOpen e`
is the `AppError(INVALID_STATE, "Circuit breaker open for …", {originalError})`
thrown at ErrorHandler.ts lines 233-237 (the CircuitOpenError of the spec),
carrying the attempt's own error; `exhausted` is the
`AppError(UNKNOWN_ERROR, "Operation failed after N attempts", {lastError})`
thrown at lines 261-265 (the RetryExhaustedError of the spec), wrapping the
last error seen (`none` only when the loop never ran, i.e. `maxRetries = 0`). -/
inductive RetryOutcome (ε α : Type) where
  | ok (v : α)
  | circuitOpen (cause : ε)
  | exhausted (lastError : Option ε)
deriving DecidableEq, Repr

/-- Observable state threaded through a `withRetry` run: the circuit entry of
`options.context` (untouched when no context is supplied), the number of
times the wrapped operation has been invoked, and the backoff delays slept. -/
structure RetrySt where
  circuit : Option Circuit
  calls : Nat
  delays : List Nat
deriving DecidableEq, Repr

/-- The `for (let attempt = 0; attempt < maxRetries; attempt++)` body of
`withRetry` (ErrorHandler.ts lines 213-258).  The operation is embedded as a
function of the attempt index (`op attempt` is what `await operation()`
produces on that iteration), and `times attempt` embeds the `Date.now()`
reads made while handling that attempt's failure.  `useCircuit` is
`options.context !== undefined`; `fuel` counts the remaining iterations
(`maxRetries - attempt` at entry), so running out of fuel is the loop
exiting and reaching the final `throw` (lines 261-265). -/
def withRetryLoop {ε α : Type} (op : Nat → Except ε α) (times : Nat → Nat)
    (maxRetries baseDelay : Nat) (useCircuit : Bool) :
    Nat → Nat → RetrySt → Option ε → RetryOutcome ε α × RetrySt
  | _, 0, st, lastError => (.exhausted lastError, st)
  | attempt, fuel + 1, st, _ =>
    match op attempt with
    | .ok v =>
        let st := { st with calls := st.calls + 1 }
        let st := if useCircuit then
            { st with circuit := some (recordSuccess st.circuit) }
          else st
        (.ok v, st)
    | .error e =>
        let st := { st with calls := st.calls + 1 }
        let st := if useCircuit then
            { st with circuit := some (recordFailure st.circuit (times attempt)) }
          else st
        let check := if useCircuit then isCircuitOpen st.circuit (times attempt)
          else (false, st.circuit)
        let st := { st with circuit := check.2 }
        if check.1 then
          (.circuitOpen e, st)
        else if attempt = maxRetries - 1 then
          (.exhausted (some e), st)
        else
          let d := backoffDelay baseDelay attempt
          withRetryLoop op times maxRetries baseDelay useCircuit (attempt + 1)
            fuel { st with delays := st.delays ++ [d] } (some e)

/-- `withRetry` (ErrorHandler.ts lines 204-266).  `maxRetries` is
`options.maxRetries ?? defaultRetryConfig.maxAttempts` and `baseDelay` is
`options.retryDelay ?? defaultRetryConfig.baseDelay`, both already resolved;
`circuit` is the entry of `options.context` in the circuits map (`none`
when absent or when no context is supplied). -/
def withRetry {ε α : Type} (op : Nat → Except ε α) (times : Nat → Nat)
    (maxRetries baseDelay : Nat) (useCircuit : Bool) (circuit : Option Circuit) :
    RetryOutcome ε α × RetrySt :=
  withRetryLoop op times maxRetries baseDelay useCircuit 0 maxRetries
    { circuit := circuit, calls := 0, delays := [] } none

/-! ## withCircuitBreaker (ErrorHandler.ts lines 277-297) -/

/-- How one `withCircuitBreaker` call terminates: `circuitOpen` is the
`AppError(INVALID_STATE, "Circuit breaker is open for …")` thrown at lines
282-286; `opError e` is the operation's own error rethrown unwrapped at
line 295. -/
inductive CBOutcome (ε α : Type) where
  | ok (v : α)
  | circuitOpen
  | opError (e : ε)
deriving DecidableEq, Repr

/-- `withCircuitBreaker` (ErrorHandler.ts lines 277-297).  Returns the
outcome, the updated circuit entry, and how many times the operation was
invoked. -/
def withCircuitBreaker {ε α : Type} (op : Except ε α) (circuit : Option Circuit)
    (now : Nat) : CBOutcome ε α × Option Circuit × Nat :=
  let check := isCircuitOpen circuit now
  if check.1 then
    (.circuitOpen, check.2, 0)
  else
    match op with
    | .ok v => (.ok v, some (recordSuccess check.2), 1)
    | .error e => (.opError e, some (recordFailure check.2 now), 1)

/-! ## TTS request validation (TTSService.ts lines 18-25, 138-161) -/

/-- `ITTSSynthesizeOptions` (TTSService.ts lines 18-25).  The JS `number`
fields are embedded as `ℚ`; only comparisons are performed on them, which
are exact. -/
structure ITTSSynthesizeOptions where
  text : String
  voice : Option String := none
  rate : Option ℚ := none
  pitch : Option ℚ := none
  volume : Option ℚ := none
  language : Option String := none

/-- `Required<ITTSSynthesizeOptions>`, the return shape of
`validateOptions`. -/
structure ValidatedOptions where
  text : String
  voice : String
  rate : ℚ
  pitch : ℚ
  volume : ℚ
  language : String
deriving DecidableEq, Repr

/-- `clamp` (TTSService.ts lines 159-161):
`Math.max(min, Math.min(max, value))`. -/
def clamp (value lo hi : ℚ) : ℚ :=
  max lo (min hi value)

/-- JS `String.prototype.trim`: remove leading and trailing whitespace
(the texts in play contain only ASCII whitespace, where JS and
`Char.isWhitespace` agree). -/
def jsTrim (s : String) : String :=
  String.mk (((s.data.dropWhile Char.isWhitespace).reverse.dropWhile
    Char.isWhitespace).reverse)

/-- `validateOptions` (TTSService.ts lines 138-157).  `currentVoice` is the
instance field consulted for the voice default. -/
def validateOptions (currentVoice : Option String) (o : ITTSSynthesizeOptions) :
    Except String ValidatedOptions :=
  if (jsTrim o.text).length = 0 then
    .error "Text cannot be empty"
  else if 5000 < o.text.length then
    .error "Text too long (max 5000 characters)"
  else
    .ok { text := o.text
          voice := o.voice.getD (currentVoice.getD "default")
          rate := clamp (o.rate.getD 1) (1/2) 2
          pitch := clamp (o.pitch.getD 1) (1/2) 2
          volume := clamp (o.volume.getD 1) 0 1
          language := o.language.getD "ru-RU" }

/-! ## Server synthesis path (ServerTTSService.ts lines 48-97) -/

/-- The word list `validatedOptions.text.split(/\s+/).filter(w => w.length > 0)`
(ServerTTSService.ts line 67): the maximal non-whitespace runs of the text. -/
def splitWords (s : String) : List String :=
  (s.split fun c => c.isWhitespace).filter fun w => w.length ≠ 0

/-- `ServerTTSService.synthesize` (ServerTTSService.ts lines 48-97), up to
the network call.  `net` embeds `nlpClient.generateSpeech` (its answer, as a
byte list or an error); the second component of the result counts how many
times it was called.  `ensureInitialized` (TTSService.ts lines 167-171)
throws when `isInitialized` is false; the `serverAvailable` guard is
lines 51-53. -/
def serverSynthesize (isInitialized serverAvailable : Bool)
    (currentVoice : Option String) (net : List String → Except String (List Nat))
    (o : ITTSSynthesizeOptions) : Except String (List Nat) × Nat :=
  if ¬ isInitialized then
    (.error "TTS service not initialized. Call initialize() first.", 0)
  else if ¬ serverAvailable then
    (.error "Server is not available", 0)
  else
    match validateOptions currentVoice o with
    | .error e => (.error e, 0)
    | .ok v =>
        match net (splitWords v.text) with
        | .error e => (.error e, 1)
        | .ok bytes => (.ok bytes, 1)

/-! ## Local fallback synthesis and WAV encoding (MockTTSService.ts) -/

/-- Little-endian bytes of `DataView.setUint16(…, v, true)`. -/
def u16le (v : Nat) : List Nat :=
  [v % 256, v / 256 % 256]

/-- Little-endian bytes of `DataView.setUint32(…, v, true)`. -/
def u32le (v : Nat) : List Nat :=
  [v % 256, v / 256 % 256, v / 65536 % 256, v / 16777216 % 256]

/-- Truncation toward zero, the integer conversion `DataView.setInt16`
applies to its JS number argument. -/
def ratTrunc (q : ℚ) : ℤ :=
  if q < 0 then -⌊-q⌋ else ⌊q⌋

/-- One sample written by the data loop of `encodeWAV`
(MockTTSService.ts lines 309-314): clamp to [−1, 1], scale by 0x8000 for
negative values and 0x7fff otherwise, store as little-endian 16-bit
two's complement. -/
def encodeSample (s : ℚ) : List Nat :=
  let c := max (-1) (min 1 s)
  let v : ℚ := if c < 0 then c * 32768 else c * 32767
  let b := (ratTrunc v % 65536).toNat
  [b % 256, b / 256]

/-- `encodeWAV` (MockTTSService.ts lines 283-317): the 44-byte RIFF/WAVE
header written field by field, followed by the 16-bit samples.  Chunk-ID
byte lists spell `RIFF`, `WAVE`, `fmt ` and `data`. -/
def encodeWAV (samples : List ℚ) (sampleRate : Nat) : List Nat :=
  [82, 73, 70, 70] ++
  u32le (36 + samples.length * 2) ++
  [87, 65, 86, 69] ++
  [102, 109, 116, 32] ++
  u32le 16 ++
  u16le 1 ++
  u16le 1 ++
  u32le sampleRate ++
  u32le (sampleRate * 2) ++
  u16le 2 ++
  u16le 16 ++
  [100, 97, 116, 97] ++
  u32le (samples.length * 2) ++
  (samples.map encodeSample).flatten

/-- `text.split(/\s+/).length` (MockTTSService.ts line 328).  The JS regex
split merges adjacent whitespace into one separator, yields `[""]` on the
empty string, and keeps one empty token at an edge that starts or ends with
whitespace; `String.split` on `Char.isWhitespace` differs only by producing
an empty token per excess separator, so the JS count is the non-empty
tokens plus one for each whitespace edge. -/
def wordCount (s : String) : Nat :=
  if s.length = 0 then 1
  else
    let parts := s.split fun c => c.isWhitespace
    (parts.filter fun t => t.length ≠ 0).length +
      (if (parts.head?.getD "").length = 0 then 1 else 0) +
      (if (parts.getLast?.getD "").length = 0 then 1 else 0)

/-- `estimateDuration` (MockTTSService.ts lines 326-330):
`(wordCount / 150) * 60` seconds. -/
def mockDuration (text : String) : ℚ :=
  (wordCount text : ℚ) / 150 * 60

/-- `numSamples = Math.floor(sampleRate * duration)` with the fixed
`sampleRate = 22050` (MockTTSService.ts lines 260-262). -/
def mockNumSamples (text : String) : Nat :=
  (⌊(22050 : ℚ) * mockDuration text⌋).toNat

/-- `generateMockAudio` (MockTTSService.ts lines 256-274).  The sine-wave
sample values are produced by `Math.sin`, a transcendental on floats; the
waveform is abstracted as the function `wave` from sample index to value —
every property proved below holds for all waveforms. -/
def generateMockAudio (wave : Nat → ℚ) (text : String) : List Nat :=
  encodeWAV ((List.range (mockNumSamples text)).map wave) 22050

/-- `MockTTSService.synthesize` (MockTTSService.ts lines 87-145) up to the
audio buffer it returns: `ensureInitialized`, then `validateOptions`, then
`generateMockAudio` on the validated text. -/
def mockSynthesize (isInitialized : Bool) (currentVoice : Option String)
    (wave : Nat → ℚ) (o : ITTSSynthesizeOptions) : Except String (List Nat) :=
  if ¬ isInitialized then
    .error "TTS service not initialized. Call initialize() first."
  else
    match validateOptions currentVoice o with
    | .error e => .error e
    | .ok v => .ok (generateMockAudio wave v.text)

/-! ## Provider selection (TTSService.ts lines 187-209) -/

/-- Which provider `TTSServiceFactory.createInstance` returned. -/
inductive SelectedProvider where
  | server
  | mock
deriving DecidableEq, Repr

/-- `TTSServiceFactory.createInstance` (TTSService.ts lines 187-209):
construct and initialize `ServerTTSService`; on any throw, fall back to
constructing and initializing `MockTTSService`.  `serverInit` and `mockInit`
embed what each `initialize()` call does (returns or throws). -/
def createInstance (serverInit mockInit : Except String Unit) :
    Except String SelectedProvider :=
  match serverInit with
  | .ok _ => .ok .server
  | .error _ =>
      match mockInit with
      | .ok _ => .ok .mock
      | .error e => .error e

/-! ## Playback (TTSService.ts lines 45-112) -/

/-- What happens after `source.start(0)` in `play`: either the synchronous
start throws, or playback completes and `onended` fires.  (These are the
only paths the code handles; there is no other asynchronous error hook.) -/
inductive PlayEvent where
  | startThrows (msg : String)
  | ends
deriving DecidableEq, Repr

/-- `TTSService.play` (TTSService.ts lines 45-112).  `decode` embeds
`audioContext.decodeAudioData` on the copied bytes (its success, or the
failure message of its rejection).  The result is the settled promise
(`.ok` = resolved, `.error m` = rejected with an `Error` whose message is
`m`) together with how many times `options.onEnd` and `options.onError`
were invoked.  A decode failure is caught by the outer `catch`
(lines 104-111), passed through `errorHandler.handleError` — whose
`processError` keeps an `Error`'s own message — and re-thrown as
`new Error(message)`; neither callback runs on that path. -/
def play (decode : Except String Unit) (ev : PlayEvent) :
    Except String Unit × Nat × Nat :=
  match decode with
  | .error msg => (.error msg, 0, 0)
  | .ok _ =>
      match ev with
      | .startThrows msg => (.error msg, 0, 1)
      | .ends => (.ok (), 1, 0)

/-! ## Helper lemmas about the circuit state machine -/

lemma failN_failures (ts : Nat → Nat) (n : Nat) : (failN ts n).failures = n := by
  induction n with
  | zero => rfl
  | succ n ih =>
    simp only [failN, recordFailure, getOrCreateCircuit, Option.getD_some]
    split <;> simp [ih]

lemma failN_state (ts : Nat → Nat) (n : Nat) :
    (failN ts n).state = if failureThreshold ≤ n then .OPEN else .CLOSED := by
  induction n with
  | zero => rfl
  | succ n ih =>
    simp only [failN, recordFailure, getOrCreateCircuit, Option.getD_some,
      failN_failures]
    split
    · simp only [*]
    · have hlt : ¬ failureThreshold ≤ n + 1 := by assumption
      have hlt' : ¬ failureThreshold ≤ n := fun h => hlt (Nat.le_succ_of_le h)
      simp only [ih, if_neg hlt', if_neg hlt]

lemma recordSuccess_closed (c : Circuit) (h : c.state = .CLOSED) :
    recordSuccess (some c) = { c with failures := 0 } := by
  simp only [recordSuccess, getOrCreateCircuit, Option.getD_some, h]

lemma recordFailure_halfOpen_reopens (c : Circuit) (now : Nat)
    (hf : failureThreshold ≤ c.failures) :
    (recordFailure (some c) now).state = .OPEN ∧
    (recordFailure (some c) now).lastFailureTime = now := by
  simp only [recordFailure, getOrCreateCircuit, Option.getD_some]
  rw [if_pos (Nat.le_succ_of_le hf)]
  exact ⟨rfl, rfl⟩

lemma reachable_invariant (c : Option Circuit) (h : Reachable c) :
    circuitInvariant c := by
  induction h with
  | absent => intro circ hc _; cases hc
  | fail c now _ ih =>
    intro circ hc hstate
    injection hc with hc
    subst hc
    revert hstate
    simp only [recordFailure]
    split
    · intro _; assumption
    · intro hstate
      match c with
      | none =>
          exact absurd hstate (by simp [getOrCreateCircuit, initialCircuit])
      | some c0 =>
          simp only [getOrCreateCircuit, Option.getD_some] at hstate ⊢
          exact Nat.le_succ_of_le (ih c0 rfl hstate)
  | succ c _ ih =>
    intro circ hc hstate
    injection hc with hc
    subst hc
    revert hstate
    match c with
    | none =>
        simp [recordSuccess, getOrCreateCircuit, initialCircuit]
    | some c0 =>
        simp only [recordSuccess, getOrCreateCircuit, Option.getD_some]
        match h0 : c0.state with
        | .HALF_OPEN =>
            simp only []
            split
            · simp
            · intro _
              exact ih c0 rfl (by rw [h0]; simp)
        | .CLOSED => simp
        | .OPEN =>
            intro _
            exact ih c0 rfl (by rw [h0]; simp)
  | query c now _ ih =>
    intro circ hc hstate
    revert hc
    match c with
    | none => simp [isCircuitOpen]
    | some c0 =>
        match h0 : c0.state with
        | .OPEN =>
            simp only [isCircuitOpen, h0]
            split
            · intro hc
              injection hc with hc
              subst hc
              exact ih c0 rfl (by rw [h0]; simp)
            · intro hc
              injection hc with hc
              subst hc
              exact ih c0 rfl (by rw [h0]; simp)
        | .CLOSED =>
            simp only [isCircuitOpen, h0]
            intro hc
            injection hc with hc
            subst hc
            exact ih c0 rfl hstate
        | .HALF_OPEN =>
            simp only [isCircuitOpen, h0]
            intro hc
            injection hc with hc
            subst hc
            exact ih c0 rfl hstate

lemma isCircuitOpen_open_within (c : Circuit) (now : Nat) (hs : c.state = .OPEN)
    (h : now - c.lastFailureTime < circuitTimeout) :
    isCircuitOpen (some c) now = (true, some c) := by
  simp [isCircuitOpen, hs, Nat.not_le.mpr h]

lemma isCircuitOpen_open_elapsed (c : Circuit) (now : Nat) (hs : c.state = .OPEN)
    (h : circuitTimeout ≤ now - c.lastFailureTime) :
    isCircuitOpen (some c) now = (false, some { c with state := .HALF_OPEN }) := by
  simp [isCircuitOpen, hs, h]

/-! ## Claim theorems: circuit state machine -/

/-- C2: a circuit starting CLOSED (the freshly created record) reaches OPEN
exactly on the `failureThreshold`-th = 5th consecutive failure and not
before, and a success recorded while CLOSED resets the failure counter
to 0 (and keeps the circuit CLOSED). -/
theorem recordFailure_opens_on_fifth :
    (∀ (ts : Nat → Nat) (n : Nat),
        ((failN ts n).state = .OPEN ↔ failureThreshold ≤ n)) ∧
    failureThreshold = 5 ∧
    (∀ c : Circuit, c.state = .CLOSED →
        (recordSuccess (some c)).failures = 0 ∧
        (recordSuccess (some c)).state = .CLOSED) := by
  refine ⟨?_, rfl, ?_⟩
  · intro ts n
    rw [failN_state]
    split <;> simp_all
  · intro c h
    rw [recordSuccess_closed c h]
    exact ⟨rfl, h⟩

/-- Witness for C2 at concrete inputs: 5 failures open the circuit, 4 do
not, and a success on a CLOSED record with 3 failures resets them. -/
theorem recordFailure_opens_on_fifth_witness :
    (failN (fun k => k) 5).state = .OPEN ∧
    ¬ (failN (fun k => k) 4).state = .OPEN ∧
    (recordSuccess (some ⟨.CLOSED, 3, 1, 7⟩)).failures = 0 ∧
    (recordSuccess (some ⟨.CLOSED, 3, 1, 7⟩)).state = .CLOSED := by
  have h := recordFailure_opens_on_fifth
  exact ⟨(h.1 (fun k => k) 5).mpr (by decide),
    fun hc => absurd ((h.1 (fun k => k) 4).mp hc) (by decide),
    (h.2.2 ⟨.CLOSED, 3, 1, 7⟩ rfl).1,
    (h.2.2 ⟨.CLOSED, 3, 1, 7⟩ rfl).2⟩

/-- C3: an OPEN circuit queried within the cooldown stays OPEN and the query
answers true (the call fails immediately); the first query at or after the
cooldown flips it to HALF_OPEN and answers false (the call is let through).
In HALF_OPEN, two consecutive successes (successThreshold = 2) close the
circuit and reset both counters, while a single failure (the failure count
is at least the threshold, by the reachability invariant) re-opens it and
refreshes `lastFailureTime`. -/
theorem circuit_cooldown_transitions :
    (∀ (c : Circuit) (now : Nat), c.state = .OPEN →
        now - c.lastFailureTime < circuitTimeout →
        isCircuitOpen (some c) now = (true, some c)) ∧
    (∀ (c : Circuit) (now : Nat), c.state = .OPEN →
        circuitTimeout ≤ now - c.lastFailureTime →
        isCircuitOpen (some c) now = (false, some { c with state := .HALF_OPEN })) ∧
    (∀ c : Circuit, c.state = .HALF_OPEN → c.successes = 0 →
        (recordSuccess (some c)).state = .HALF_OPEN ∧
        (recordSuccess (some c)).successes = 1 ∧
        recordSuccess (some (recordSuccess (some c))) =
          { c with state := .CLOSED, failures := 0, successes := 0 }) ∧
    (∀ (c : Circuit) (now : Nat), c.state = .HALF_OPEN →
        failureThreshold ≤ c.failures →
        (recordFailure (some c) now).state = .OPEN ∧
        (recordFailure (some c) now).lastFailureTime = now) := by
  refine ⟨isCircuitOpen_open_within, isCircuitOpen_open_elapsed, ?_, ?_⟩
  · intro c hs hsucc
    have h1 : recordSuccess (some c) =
        { c with state := .HALF_OPEN, successes := 1 } := by
      simp [recordSuccess, getOrCreateCircuit, hs, hsucc, successThreshold]
    refine ⟨by rw [h1], by rw [h1], ?_⟩
    rw [h1]
    simp [recordSuccess, getOrCreateCircuit, successThreshold]
  · intro c now _ hf
    exact recordFailure_halfOpen_reopens c now hf

/-- Witness for C3 at concrete inputs: an OPEN record that failed at t=1000,
queried at t=2000 (within cooldown) and t=61000 (cooldown elapsed), then the
HALF_OPEN record through two successes and through one failure. -/
theorem circuit_cooldown_transitions_witness :
    isCircuitOpen (some ⟨.OPEN, 5, 0, 1000⟩) 2000 =
      (true, some ⟨.OPEN, 5, 0, 1000⟩) ∧
    isCircuitOpen (some ⟨.OPEN, 5, 0, 1000⟩) 61000 =
      (false, some ⟨.HALF_OPEN, 5, 0, 1000⟩) ∧
    recordSuccess (some (recordSuccess (some ⟨.HALF_OPEN, 5, 0, 1000⟩))) =
      ⟨.CLOSED, 0, 0, 1000⟩ ∧
    (recordFailure (some ⟨.HALF_OPEN, 5, 0, 1000⟩) 99).state = .OPEN ∧
    (recordFailure (some ⟨.HALF_OPEN, 5, 0, 1000⟩) 99).lastFailureTime = 99 := by
  have h := circuit_cooldown_transitions
  exact ⟨h.1 ⟨.OPEN, 5, 0, 1000⟩ 2000 rfl (by decide),
    h.2.1 ⟨.OPEN, 5, 0, 1000⟩ 61000 rfl (by decide),
    (h.2.2.1 ⟨.HALF_OPEN, 5, 0, 1000⟩ rfl rfl).2.2,
    (h.2.2.2 ⟨.HALF_OPEN, 5, 0, 1000⟩ 99 rfl (by decide)).1,
    (h.2.2.2 ⟨.HALF_OPEN, 5, 0, 1000⟩ 99 rfl (by decide)).2⟩

/-- C10: every map entry the engine can produce (via `recordFailure`,
`recordSuccess` or an `isCircuitOpen` query) satisfies the invariant that a
non-CLOSED record holds at least `failureThreshold` failures; consequently a
single recorded failure on a HALF_OPEN record immediately re-opens the
circuit even though `recordFailure` only sets OPEN when
`failures ≥ failureThreshold`. -/
theorem circuit_open_failure_invariant :
    (∀ c, Reachable c → circuitInvariant c) ∧
    (∀ (c : Circuit) (now : Nat), circuitInvariant (some c) →
        c.state = .HALF_OPEN →
        (recordFailure (some c) now).state = .OPEN ∧
        (recordFailure (some c) now).lastFailureTime = now) := by
  refine ⟨reachable_invariant, ?_⟩
  intro c now hinv hs
  exact recordFailure_halfOpen_reopens c now (hinv c rfl (by rw [hs]; simp))

/-- Witness for C10: the invariant holds of the entry reached by five
failures at t=0 followed by a query at t=60000 (which lands in HALF_OPEN),
and a failure recorded on that concrete HALF_OPEN record re-opens it. -/
theorem circuit_open_failure_invariant_witness :
    circuitInvariant (isCircuitOpen (some (failN (fun _ => 0) 5)) 60000).2 ∧
    (recordFailure (some ⟨.HALF_OPEN, 5, 0, 0⟩) 42).state = .OPEN ∧
    (recordFailure (some ⟨.HALF_OPEN, 5, 0, 0⟩) 42).lastFailureTime = 42 := by
  have h := circuit_open_failure_invariant
  have hr : Reachable (isCircuitOpen (some (failN (fun _ => 0) 5)) 60000).2 :=
    .query _ _
      (.fail _ _ (.fail _ _ (.fail _ _ (.fail _ _ (.fail _ _ (.succ none .absent))))))
  have hinv : circuitInvariant (some ⟨.HALF_OPEN, 5, 0, 0⟩) := by
    intro circ hc _
    cases hc
    decide
  exact ⟨h.1 _ hr, (h.2 ⟨.HALF_OPEN, 5, 0, 0⟩ 42 hinv rfl).1,
    (h.2 ⟨.HALF_OPEN, 5, 0, 0⟩ 42 hinv rfl).2⟩

/-! ## Helper lemmas about the retry loop -/

lemma recordFailure_lastFailureTime (c : Option Circuit) (now : Nat) :
    (recordFailure c now).lastFailureTime = now := by
  simp only [recordFailure]
  split <;> rfl

lemma recordFailure_keeps_open (c : Circuit) (now : Nat) (h : c.state = .OPEN) :
    (recordFailure (some c) now).state = .OPEN := by
  simp only [recordFailure, getOrCreateCircuit, Option.getD_some]
  split
  · rfl
  · exact h

lemma isCircuitOpen_just_failed (c : Option Circuit) (now : Nat)
    (h : (recordFailure c now).state = .OPEN) :
    isCircuitOpen (some (recordFailure c now)) now =
      (true, some (recordFailure c now)) := by
  apply isCircuitOpen_open_within _ _ h
  rw [recordFailure_lastFailureTime, Nat.sub_self]
  decide

lemma withRetryLoop_succeeds_at {ε α : Type} (op : Nat → Except ε α)
    (times : Nat → Nat) (maxR base : Nat) :
    ∀ (k attempt fuel : Nat) (st : RetrySt) (le : Option ε) (v : α),
      attempt + fuel = maxR → k < fuel →
      (∀ j, j < k → ∃ e, op (attempt + j) = .error e) →
      op (attempt + k) = .ok v →
      (withRetryLoop op times maxR base false attempt fuel st le).1 = .ok v ∧
      (withRetryLoop op times maxR base false attempt fuel st le).2.calls =
        st.calls + (k + 1) ∧
      (withRetryLoop op times maxR base false attempt fuel st le).2.circuit =
        st.circuit := by
  intro k
  induction k with
  | zero =>
      intro attempt fuel st le v _ hk hfail hok
      obtain ⟨f, rfl⟩ : ∃ f, fuel = f + 1 :=
        ⟨fuel - 1, (Nat.succ_pred_eq_of_pos hk).symm⟩
      rw [Nat.add_zero] at hok
      simp [withRetryLoop, hok]
  | succ k ih =>
      intro attempt fuel st le v hsum hk hfail hok
      obtain ⟨f, rfl⟩ : ∃ f, fuel = f + 1 :=
        ⟨fuel - 1, (Nat.succ_pred_eq_of_pos (Nat.lt_of_le_of_lt (Nat.zero_le _) hk)).symm⟩
      obtain ⟨e, he⟩ := hfail 0 (Nat.succ_pos k)
      rw [Nat.add_zero] at he
      have hne : ¬ attempt = maxR - 1 := by omega
      have hstep := ih (attempt + 1) f
        { st with calls := st.calls + 1,
                  delays := st.delays ++ [backoffDelay base attempt] }
        (some e) v (by omega) (by omega)
        (fun j hj => by
          have := hfail (j + 1) (Nat.succ_lt_succ hj)
          rwa [show attempt + (j + 1) = attempt + 1 + j by omega] at this)
        (by rwa [show attempt + 1 + k = attempt + (k + 1) by omega])
      simp only [withRetryLoop, he, if_neg hne, Bool.false_eq_true, if_false]
      refine ⟨hstep.1, ?_, hstep.2.2⟩
      rw [hstep.2.1]
      simp only []
      omega

/-! ## Claim theorems: retry engine -/

/-- C1 counterexample: with the supplied key's circuit OPEN and well inside
the cooldown (it failed at t=1000 and every `Date.now()` reads 1000), a
`withRetry` call still invokes the operation — and when the operation
succeeds the call returns that value instead of failing with
CircuitOpenError.  The operation is invoked once (`calls = 1`), not zero
times as the claim requires. -/
theorem withRetry_open_circuit_counterexample :
    withRetry (fun _ => (.ok 42 : Except String Nat)) (fun _ => 1000) 3 1000
        true (some ⟨.OPEN, 5, 0, 1000⟩) =
      (.ok 42, ⟨some ⟨.OPEN, 5, 0, 1000⟩, 1, []⟩) := by
  rfl

/-- C1 (amended): `withRetry` consults the circuit only inside the failure
handler, never before an attempt.  With the circuit OPEN at entry, the
operation is still invoked on the first attempt: if that attempt fails, the
failure is recorded and the call then fails immediately with
CircuitOpenError — exactly one invocation, no backoff sleep, no further
attempts; if it succeeds, the value is returned (with a success recorded)
despite the OPEN circuit. -/
theorem withRetry_checks_circuit_after_failure (ε α : Type)
    (op : Nat → Except ε α) (times : Nat → Nat) (maxRetries baseDelay : Nat)
    (c : Circuit) (hs : c.state = .OPEN) (hm : 1 ≤ maxRetries) :
    (∀ e, op 0 = .error e →
        withRetry op times maxRetries baseDelay true (some c) =
          (.circuitOpen e,
           ⟨some (recordFailure (some c) (times 0)), 1, []⟩)) ∧
    (∀ v, op 0 = .ok v →
        withRetry op times maxRetries baseDelay true (some c) =
          (.ok v, ⟨some (recordSuccess (some c)), 1, []⟩)) := by
  obtain ⟨m, rfl⟩ : ∃ m, maxRetries = m + 1 :=
    ⟨maxRetries - 1, (Nat.succ_pred_eq_of_pos hm).symm⟩
  constructor
  · intro e he
    have hopen : (recordFailure (some c) (times 0)).state = .OPEN :=
      recordFailure_keeps_open c (times 0) hs
    simp [withRetry, withRetryLoop, he, isCircuitOpen_just_failed _ _ hopen]
  · intro v hv
    simp [withRetry, withRetryLoop, hv]

/-- Witness for the amended C1 at a concrete input: OPEN circuit, operation
failing with "boom" — CircuitOpenError after exactly one invocation and no
sleeps. -/
theorem withRetry_checks_circuit_after_failure_witness :
    withRetry (fun _ => (.error "boom" : Except String Nat)) (fun _ => 7) 3
        1000 true (some ⟨.OPEN, 5, 0, 0⟩) =
      (.circuitOpen "boom", ⟨some ⟨.OPEN, 6, 0, 7⟩, 1, []⟩) := by
  have h := (withRetry_checks_circuit_after_failure String Nat
    (fun _ => .error "boom") (fun _ => 7) 3 1000 ⟨.OPEN, 5, 0, 0⟩ rfl
    (by decide)).1 "boom" rfl
  exact h.trans (by decide)

/-- C4: with no circuit key, `withRetry` with maxAttempts=3 on an
always-failing operation invokes it exactly 3 times (sleeping the two
backoff delays in between) and fails with RetryExhaustedError wrapping the
third attempt's error; and whenever attempt `k` succeeds after `k`
failures, the value is returned with exactly `k + 1` invocations — the
remaining attempts never run. -/
theorem withRetry_exhaustion_and_early_return :
    (∀ (ε α : Type) (f : Nat → ε) (times : Nat → Nat) (base : Nat),
        withRetry (fun n => (.error (f n) : Except ε α)) times 3 base
            false none =
          (.exhausted (some (f 2)),
           ⟨none, 3, [backoffDelay base 0, backoffDelay base 1]⟩)) ∧
    (∀ (ε α : Type) (op : Nat → Except ε α) (times : Nat → Nat)
        (maxR base k : Nat) (v : α),
        (∀ j, j < k → ∃ e, op j = .error e) → op k = .ok v → k < maxR →
        (withRetry op times maxR base false none).1 = .ok v ∧
        (withRetry op times maxR base false none).2.calls = k + 1) := by
  constructor
  · intro ε α f times base
    rfl
  · intro ε α op times maxR base k v hfail hok hk
    have h := withRetryLoop_succeeds_at op times maxR base k 0 maxR
      ⟨none, 0, []⟩ none v (Nat.zero_add _) hk
      (fun j hj => by simpa using hfail j hj) (by simpa using hok)
    refine ⟨h.1, ?_⟩
    rw [withRetry, h.2.1]
    simp only []
    omega

/-- Witness for C4 at concrete inputs: an operation failing with its attempt
index exhausts 3 attempts with delays 20 and 40 (base 20), and an operation
succeeding on attempt 1 returns after exactly 2 invocations. -/
theorem withRetry_exhaustion_and_early_return_witness :
    withRetry (fun n => (.error n : Except Nat Nat)) (fun _ => 0) 3 20
        false none =
      (.exhausted (some 2), ⟨none, 3, [20, 40]⟩) ∧
    (withRetry (fun n => if n = 1 then .ok 9 else (.error 0 : Except Nat Nat))
        (fun _ => 0) 3 20 false none).1 = .ok 9 ∧
    (withRetry (fun n => if n = 1 then .ok 9 else (.error 0 : Except Nat Nat))
        (fun _ => 0) 3 20 false none).2.calls = 2 := by
  have h := withRetry_exhaustion_and_early_return
  have h1 := h.1 Nat Nat (fun n => n) (fun _ => 0) 20
  have h2 := h.2 Nat Nat
    (fun n => if n = 1 then .ok 9 else (.error 0 : Except Nat Nat))
    (fun _ => 0) 3 20 1 9
    (fun j hj => by
      have hj0 : j = 0 := Nat.lt_one_iff.mp hj
      subst hj0
      exact ⟨0, rfl⟩)
    rfl (by decide)
  exact ⟨h1.trans (by decide), h2.1, h2.2⟩

/-- C6 counterexample: the spec's per-policy formula fails on the code for
the policy {maxAttempts 3, baseDelay 6000, maxDelay 20000, multiplier 2} at
attempt 1: the code's delay (with the only available override, the base
delay, set to 6000) is capped at the fixed default 10000, while the policy
formula yields 12000. -/
theorem backoff_ignores_policy_counterexample :
    backoffDelay 6000 1 = 10000 ∧
    specDelay ⟨3, 6000, 20000, 2⟩ 1 = 12000 ∧
    backoffDelay 6000 1 ≠ specDelay ⟨3, 6000, 20000, 2⟩ 1 := by
  decide

/-- C6 (amended): the backoff delay before the retry after attempt
`attempt` is min(baseDelay · 2^attempt, 10000): the multiplier 2 and the
cap 10000 are always the fixed defaults (the per-call options carry no
maxDelay or backoffMultiplier field — only maxAttempts, via
`options.maxRetries`, and baseDelay, via `options.retryDelay`, are
overridable).  With base 1000 the delays for attempts 0..4 are 1000, 2000,
4000, 8000, 10000, and the default config is maxAttempts=3, baseDelay=1000,
maxDelay=10000, multiplier=2. -/
theorem backoffDelay_formula :
    (∀ base attempt,
        backoffDelay base attempt = min (base * 2 ^ attempt) 10000) ∧
    backoffDelay 1000 0 = 1000 ∧ backoffDelay 1000 1 = 2000 ∧
    backoffDelay 1000 2 = 4000 ∧ backoffDelay 1000 3 = 8000 ∧
    backoffDelay 1000 4 = 10000 ∧
    defaultRetryConfig = ⟨3, 1000, 10000, 2⟩ := by
  exact ⟨fun base attempt => rfl, by decide, by decide, by decide, by decide,
    by decide, rfl⟩

/-- C5: `withCircuitBreaker` fails immediately with CircuitOpenError — zero
invocations, state untouched — when the circuit is OPEN within the
cooldown; otherwise (the query answers false) it invokes the operation
exactly once, records success or failure on the queried circuit, and on
failure propagates the operation's own error unwrapped. -/
theorem withCircuitBreaker_single_invocation (ε α : Type) :
    (∀ (op : Except ε α) (c : Circuit) (now : Nat),
        c.state = .OPEN → now - c.lastFailureTime < circuitTimeout →
        withCircuitBreaker op (some c) now = (.circuitOpen, some c, 0)) ∧
    (∀ (op : Except ε α) (c : Option Circuit) (now : Nat),
        (isCircuitOpen c now).1 = false →
        ((∀ v, op = .ok v →
            withCircuitBreaker op c now =
              (.ok v, some (recordSuccess (isCircuitOpen c now).2), 1)) ∧
         (∀ e, op = .error e →
            withCircuitBreaker op c now =
              (.opError e,
               some (recordFailure (isCircuitOpen c now).2 now), 1)))) := by
  constructor
  · intro op c now hs hcool
    simp [withCircuitBreaker, isCircuitOpen_open_within c now hs hcool]
  · intro op c now hq
    exact ⟨fun v hv => by simp [withCircuitBreaker, hq, hv],
      fun e he => by simp [withCircuitBreaker, hq, he]⟩

/-- Witness for C5 at concrete inputs: an OPEN circuit inside the cooldown
short-circuits with zero invocations; on a fresh (absent) circuit a
succeeding operation and a failing operation each run exactly once and are
recorded. -/
theorem withCircuitBreaker_single_invocation_witness :
    withCircuitBreaker (.ok 3 : Except String Nat) (some ⟨.OPEN, 5, 0, 1000⟩)
        2000 = (.circuitOpen, some ⟨.OPEN, 5, 0, 1000⟩, 0) ∧
    withCircuitBreaker (.ok 3 : Except String Nat) none 5 =
      (.ok 3, some ⟨.CLOSED, 0, 0, 0⟩, 1) ∧
    withCircuitBreaker (.error "x" : Except String Nat) none 5 =
      (.opError "x", some ⟨.CLOSED, 1, 0, 5⟩, 1) := by
  have h := withCircuitBreaker_single_invocation String Nat
  refine ⟨h.1 (.ok 3) ⟨.OPEN, 5, 0, 1000⟩ 2000 rfl (by decide), ?_, ?_⟩
  · exact ((h.2 (.ok 3) none 5 rfl).1 3 rfl).trans (by decide)
  · exact ((h.2 (.error "x") none 5 rfl).2 "x" rfl).trans (by decide)

/-! ## Helper lemmas about validation and WAV encoding -/

lemma clamp_mem (v lo hi : ℚ) (h : lo ≤ hi) :
    lo ≤ clamp v lo hi ∧ clamp v lo hi ≤ hi :=
  ⟨le_max_left _ _, max_le h (min_le_left _ _)⟩

lemma encodeSample_length (s : ℚ) : (encodeSample s).length = 2 := rfl

lemma flatten_encodeSample_length (l : List ℚ) :
    ((l.map encodeSample).flatten).length = 2 * l.length := by
  induction l with
  | nil => rfl
  | cons a l ih =>
      simp only [List.map_cons, List.flatten_cons, List.length_append,
        encodeSample_length, ih, List.length_cons]
      omega

lemma encodeWAV_length (samples : List ℚ) (sr : Nat) :
    (encodeWAV samples sr).length = 44 + samples.length * 2 := by
  simp only [encodeWAV, u16le, u32le, List.length_append, List.length_cons,
    List.length_nil, flatten_encodeSample_length]
  omega

/-! ## Claim theorems: validation, selection, WAV shape, playback -/

/-- C7: blank (empty or whitespace-only) or over-5000-character text makes
the server synthesis path fail with the network oracle never invoked; every
request that passes validation gets rate and pitch clamped into [1/2, 2]
and volume into [0, 1], with the text unchanged. -/
theorem validation_rejects_and_clamps :
    (∀ (isInit avail : Bool) (cv : Option String)
        (net : List String → Except String (List Nat))
        (o : ITTSSynthesizeOptions),
        (jsTrim o.text).length = 0 ∨ 5000 < o.text.length →
        (serverSynthesize isInit avail cv net o).2 = 0 ∧
        ∃ m, (serverSynthesize isInit avail cv net o).1 = .error m) ∧
    (∀ (cv : Option String) (o : ITTSSynthesizeOptions) (r : ValidatedOptions),
        validateOptions cv o = .ok r →
        r.text = o.text ∧
        1/2 ≤ r.rate ∧ r.rate ≤ 2 ∧
        1/2 ≤ r.pitch ∧ r.pitch ≤ 2 ∧
        0 ≤ r.volume ∧ r.volume ≤ 1) := by
  constructor
  · intro isInit avail cv net o h
    cases isInit with
    | false => exact ⟨rfl, _, rfl⟩
    | true =>
      cases avail with
      | false => exact ⟨rfl, _, rfl⟩
      | true =>
        rcases h with h | h
        · exact ⟨by simp [serverSynthesize, validateOptions, h],
            "Text cannot be empty",
            by simp [serverSynthesize, validateOptions, h]⟩
        · by_cases hb : (jsTrim o.text).length = 0
          · exact ⟨by simp [serverSynthesize, validateOptions, hb],
              "Text cannot be empty",
              by simp [serverSynthesize, validateOptions, hb]⟩
          · exact ⟨by simp [serverSynthesize, validateOptions, hb, h],
              "Text too long (max 5000 characters)",
              by simp [serverSynthesize, validateOptions, hb, h]⟩
  · intro cv o r hr
    unfold validateOptions at hr
    split at hr
    · exact Except.noConfusion hr
    · split at hr
      · exact Except.noConfusion hr
      · injection hr with hr
        subst hr
        refine ⟨rfl, ?_, ?_, ?_, ?_, ?_, ?_⟩
        · exact (clamp_mem _ _ _ (by norm_num)).1
        · exact (clamp_mem _ _ _ (by norm_num)).2
        · exact (clamp_mem _ _ _ (by norm_num)).1
        · exact (clamp_mem _ _ _ (by norm_num)).2
        · exact (clamp_mem _ _ _ (by norm_num)).1
        · exact (clamp_mem _ _ _ (by norm_num)).2

/-- Witness for C7 at concrete inputs: whitespace-only text is rejected
with zero network calls, and a request with rate 100, pitch 1/4 and
volume 2 validates to rate 2, pitch 1/2, volume 1 with its text kept. -/
theorem validation_rejects_and_clamps_witness :
    ((serverSynthesize true true none (fun _ => .ok [1])
        { text := "   " }).2 = 0 ∧
      ∃ m, (serverSynthesize true true none (fun _ => .ok [1])
        { text := "   " }).1 = .error m) ∧
    validateOptions none
        { text := "hi", rate := some 100, pitch := some (1/4),
          volume := some 2 } =
      .ok ⟨"hi", "default", 2, 1/2, 1, "ru-RU"⟩ ∧
    (ValidatedOptions.mk "hi" "default" 2 (1/2) 1 "ru-RU").text = "hi" ∧
    (1/2 ≤ (ValidatedOptions.mk "hi" "default" 2 (1/2) 1 "ru-RU").rate ∧
      (ValidatedOptions.mk "hi" "default" 2 (1/2) 1 "ru-RU").rate ≤ 2) ∧
    (0 ≤ (ValidatedOptions.mk "hi" "default" 2 (1/2) 1 "ru-RU").volume ∧
      (ValidatedOptions.mk "hi" "default" 2 (1/2) 1 "ru-RU").volume ≤ 1) := by
  have h := validation_rejects_and_clamps
  have hv : validateOptions none
      { text := "hi", rate := some 100, pitch := some (1/4),
        volume := some 2 } =
      .ok ⟨"hi", "default", 2, 1/2, 1, "ru-RU"⟩ := by
    unfold validateOptions
    rw [if_neg (by decide), if_neg (by decide)]
    refine congrArg Except.ok ?_
    simp only [ValidatedOptions.mk.injEq, clamp, Option.getD_some,
      Option.getD_none]
    norm_num [min_def, max_def]
  have h2 := h.2 none
    { text := "hi", rate := some 100, pitch := some (1/4), volume := some 2 }
    ⟨"hi", "default", 2, 1/2, 1, "ru-RU"⟩ hv
  exact ⟨h.1 true true none (fun _ => .ok [1]) { text := "   " }
      (Or.inl (by decide)),
    hv, h2.1, ⟨h2.2.1, h2.2.2.1⟩, ⟨h2.2.2.2.2.2.1, h2.2.2.2.2.2.2⟩⟩

/-- C8: when the server provider's initialization throws, the factory falls
back to the Mock provider; Mock `synthesize` succeeds on every valid
request, returning the WAV encoding of the generated samples, and for every
waveform and text the buffer's total length is 44 + sampleCount·2 with a
canonical 44-byte header: RIFF / WAVE / fmt  / data chunk IDs, PCM format
tag 1, mono, 16 bits per sample, and the declared 22050 Hz sample rate in
little-endian at offset 24. -/
theorem selector_fallback_wav_wellformed :
    (∀ e : String, createInstance (.error e) (.ok ()) = .ok .mock) ∧
    (∀ (wave : Nat → ℚ) (cv : Option String) (o : ITTSSynthesizeOptions),
        (jsTrim o.text).length ≠ 0 → o.text.length ≤ 5000 →
        mockSynthesize true cv wave o = .ok (generateMockAudio wave o.text)) ∧
    (∀ (wave : Nat → ℚ) (text : String),
        (generateMockAudio wave text).length =
          44 + mockNumSamples text * 2 ∧
        (generateMockAudio wave text).take 4 = [82, 73, 70, 70] ∧
        ((generateMockAudio wave text).drop 8).take 4 = [87, 65, 86, 69] ∧
        ((generateMockAudio wave text).drop 12).take 4 = [102, 109, 116, 32] ∧
        ((generateMockAudio wave text).drop 36).take 4 = [100, 97, 116, 97] ∧
        ((generateMockAudio wave text).drop 20).take 2 = [1, 0] ∧
        ((generateMockAudio wave text).drop 22).take 2 = [1, 0] ∧
        ((generateMockAudio wave text).drop 34).take 2 = [16, 0] ∧
        ((generateMockAudio wave text).drop 24).take 4 = [34, 86, 0, 0]) := by
  refine ⟨fun e => rfl, ?_, ?_⟩
  · intro wave cv o h1 h2
    simp [mockSynthesize, validateOptions, h1, Nat.not_lt.mpr h2]
  · intro wave text
    refine ⟨?_, ?_⟩
    · rw [generateMockAudio, encodeWAV_length]
      simp
    · simp [generateMockAudio, encodeWAV, u16le, u32le]

/-- Witness for C8 at concrete inputs: the factory falls back to Mock when
the server init throws "no server", a valid "hi" request synthesizes to the
generated WAV buffer, and that buffer has the claimed length and header. -/
theorem selector_fallback_wav_wellformed_witness :
    createInstance (.error "no server") (.ok ()) = .ok .mock ∧
    mockSynthesize true none (fun _ => 0) { text := "hi" } =
      .ok (generateMockAudio (fun _ => 0) "hi") ∧
    (generateMockAudio (fun _ => 0) "hi").length =
      44 + mockNumSamples "hi" * 2 ∧
    (generateMockAudio (fun _ => 0) "hi").take 4 = [82, 73, 70, 70] ∧
    ((generateMockAudio (fun _ => 0) "hi").drop 24).take 4 = [34, 86, 0, 0] := by
  have h := selector_fallback_wav_wellformed
  have h3 := h.2.2 (fun _ => 0) "hi"
  exact ⟨h.1 "no server",
    h.2.1 (fun _ => 0) none { text := "hi" } (by decide) (by decide),
    h3.1, h3.2.1, h3.2.2.2.2.2.2.2.2⟩

/-- C9 counterexample: on a synthesis result whose bytes fail to decode,
`play` rejects but invokes `onError` zero times (and `onEnd` zero times) —
the claim that the caller-supplied `onError` callback is invoked is false. -/
theorem play_decode_failure_counterexample :
    play (.error "EncodingError: unable to decode audio data") .ends =
      (.error "EncodingError: unable to decode audio data", 0, 0) := rfl

/-- C9 (amended): `play` on a result whose audio bytes fail to decode
rejects — with an error wrapping the decode failure's message — without
ever invoking `onEnd`, but also without invoking `onError`: the decode
failure is swallowed by the outer catch and re-thrown, and the `onError`
callback is wired only to playback start failures (natural completion
invokes only `onEnd`). -/
theorem play_decode_failure_rejects (msg : String) (ev : PlayEvent) :
    play (.error msg) ev = (.error msg, 0, 0) ∧
    play (.ok ()) (.startThrows msg) = (.error msg, 0, 1) ∧
    play (.ok ()) .ends = (.ok (), 1, 0) :=
  ⟨by cases ev <;> rfl, rfl, rfl⟩

end ARG
